import Mathlib

/-!
Shallow embedding of the lasc MIDI footswitch firmware (src/lasc.c together
with the constants of its header), covering the patch step arithmetic of the
operational loop and of mode 2, the MIDI channel ring of configMIDI, the
configuration load and conditional persist logic of manageConfig, the MIDI
message encoder sendMidiPC, the mode 2 (scroll) state machine, and the
footswitch debounce and autorepeat scan loop scanFS in its two switch build
(HAS_MODE_FS undefined, so the MODE line reads closed exactly when the UP and
DOWN lines are both closed).

Machine integers are modelled as Nat with explicit reductions modulo 2^8 or
2^16 at the points where the C unsigned arithmetic can wrap.  Tick values (the
uint32 counter named now in the C source) are modelled as Nat; the modelled
traces use monotone times far below 2^32, where the uint32 wrapping
subtraction of the C source and truncated Nat subtraction coincide.
-/

namespace Lasc

/-- Constants from the header: debounce and autorepeat timing. -/
def DEBOUNCE_THRESHOLD_MS : Nat := 50

/-- Milliseconds after which a held switch starts repeating. -/
def AUTOREPEAT_AFTER_MS : Nat := 300

/-- Held time after which the autorepeat period shortens. -/
def AUTOREPEAT_FAST_AFTER : Nat := 1000

/-- The shortened autorepeat period. -/
def AUTOREPEAT_FAST_MS : Nat := 60

/-- Switch index returned by scanFS for the UP switch. -/
def UP : Nat := 0

/-- Switch index returned by scanFS for the DOWN switch. -/
def DOWN : Nat := 1

/-- Switch index returned by scanFS for the MODE switch. -/
def MODE : Nat := 2

/-- MIDI program change status nibble. -/
def MIDI_PC : Nat := 0xC0

/-- MIDI control change status nibble. -/
def MIDI_CC : Nat := 0xB0

/-- EEPROM byte offset of the stored MIDI channel. -/
def CHANNELOFFSET : Nat := 0

/-- EEPROM byte offset of the stored range index. -/
def RANGEOFFSET : Nat := 1

/-- EEPROM byte offset of the stored display flag. -/
def DISPLAYOFFSET : Nat := 4

/-- Largest valid index into the range table. -/
def MAXRANGE : Nat := 4

/-- The table of maximum patch numbers, maxPatch[] in the source
(MAXRANGE_0 .. MAXRANGE_4 from the header). -/
def maxPatch : List Nat := [127, 199, 299, 799, 998]

/-- Patch increment, embedded from the UP cases of the operational loop in
main and of mode2: increment the uint16 patch then reduce it modulo
(maxPatch[range] + 1).  The C source indexes maxPatch directly; every program
path keeps range at most MAXRANGE, where List.getD returns the table entry. -/
def patchIncrement (range patch : Nat) : Nat :=
  ((patch + 1) % 65536) % (maxPatch.getD range 0 + 1)

/-- Patch decrement, embedded from the DOWN cases of the operational loop in
main and of mode2: decrement the uint16 patch (wrapping at zero) and, if the
result exceeds maxPatch[range], saturate it to maxPatch[range]. -/
def patchDecrement (range patch : Nat) : Nat :=
  let p := (patch + 65535) % 65536
  if p > maxPatch.getD range 0 then maxPatch.getD range 0 else p

/-- Channel increment from configMIDI: increment the uint8 channel, then
reduce it modulo 0x10. -/
def channelUp (midiChannel : Nat) : Nat :=
  ((midiChannel + 1) % 256) % 0x10

/-- Channel decrement from configMIDI: decrement the uint8 channel (wrapping
at zero to 255), then reduce it modulo 0x10. -/
def channelDown (midiChannel : Nat) : Nat :=
  ((midiChannel + 255) % 256) % 0x10

/-- The in-memory configuration populated by the load part of manageConfig. -/
structure LoadedConfig where
  midiChannel : Nat
  range : Nat
  showZeroBased : Nat
deriving DecidableEq

/-- The load part of manageConfig: mask the stored channel byte to its low
four bits, reduce the stored range byte modulo (MAXRANGE + 1), and mask the
stored display byte to bit zero. -/
def manageConfigLoad (chByte rByte dByte : Nat) : LoadedConfig :=
  ⟨chByte &&& 0x0F, rByte % (MAXRANGE + 1), dByte &&& 0x01⟩

/-- The three EEPROM bytes backing the configuration. -/
structure StoredConfig where
  chByte : Nat
  rByte : Nat
  dByte : Nat
deriving DecidableEq

/-- The persist step at the end of manageConfig, as the list of
(offset, value) EEPROM writes it performs: if the in-memory channel differs
from the stored channel byte masked to its low four bits, or the in-memory
range differs from the raw stored range byte, or the in-memory display flag
differs from the raw stored display byte, write all three fields; otherwise
write nothing. -/
def manageConfigWrites (midiChannel range showZeroBased : Nat)
    (st : StoredConfig) : List (Nat × Nat) :=
  if midiChannel ≠ (st.chByte &&& 0x0F) ∨ range ≠ st.rByte ∨
      showZeroBased ≠ st.dByte then
    [(CHANNELOFFSET, midiChannel), (RANGEOFFSET, range),
     (DISPLAYOFFSET, showZeroBased)]
  else []

/-- The byte sequence sent by sendMidiPC: when sendMIDIBank is nonzero or the
range index is nonzero, first the control change status byte, the controller
number 0, and the bank value patch / 128; in every case the program change
status byte followed by patch % 128. -/
def sendMidiPC (sendMIDIBank range midiChannel patch : Nat) : List Nat :=
  (if sendMIDIBank ≠ 0 ∨ range ≠ 0 then
     [MIDI_CC ||| midiChannel, 0x00, patch / 128]
   else []) ++ [MIDI_PC ||| midiChannel, patch % 128]

/-- C1: for every range index and every in-range patch value, one UP
activation yields (p + 1) mod (maxPatch[r] + 1) and one DOWN activation
yields p - 1 for positive p and maxPatch[r] for p = 0 (wrap up, saturate
down), for the step arithmetic shared by the operational loop of main and
the mode2 working copy. -/
theorem c1_patch_step (r p : Nat) (hr : r ≤ MAXRANGE)
    (hp : p ≤ maxPatch.getD r 0) :
    patchIncrement r p = (p + 1) % (maxPatch.getD r 0 + 1) ∧
    patchDecrement r p = if p = 0 then maxPatch.getD r 0 else p - 1 := by
  have hmax : maxPatch.getD r 0 ≤ 998 := by
    unfold MAXRANGE at hr
    interval_cases r <;> decide
  constructor
  · unfold patchIncrement
    have h1 : (p + 1) % 65536 = p + 1 := Nat.mod_eq_of_lt (by omega)
    rw [h1]
  · unfold patchDecrement
    rcases Nat.eq_zero_or_pos p with h0 | h0
    · subst h0
      have h1 : (0 + 65535) % 65536 = 65535 := by decide
      rw [h1, if_pos (by omega), if_pos rfl]
    · have h1 : p + 65535 = 65536 + (p - 1) := by omega
      have h2 : (p + 65535) % 65536 = p - 1 := by
        rw [h1, Nat.add_mod_left, Nat.mod_eq_of_lt (by omega)]
      rw [h2, if_neg (by omega), if_neg (by omega)]

/-- Witness for c1_patch_step at range 0, patch 0. -/
theorem c1_patch_step_witness :
    patchIncrement 0 0 = (0 + 1) % (maxPatch.getD 0 0 + 1) ∧
    patchDecrement 0 0 = if (0 : Nat) = 0 then maxPatch.getD 0 0 else 0 - 1 :=
  c1_patch_step 0 0 (by decide) (by decide)

/-- C10: one UP step and one DOWN step each land in 0..maxPatch[r] from any
16 bit starting value, including values above the current range maximum. -/
theorem c10_step_restores_bound (r p : Nat) (hr : r ≤ MAXRANGE)
    (hp : p < 65536) :
    patchIncrement r p ≤ maxPatch.getD r 0 ∧
    patchDecrement r p ≤ maxPatch.getD r 0 := by
  constructor
  · unfold patchIncrement
    have := Nat.mod_lt ((p + 1) % 65536) (show 0 < maxPatch.getD r 0 + 1 by omega)
    omega
  · show (if (p + 65535) % 65536 > maxPatch.getD r 0 then maxPatch.getD r 0
          else (p + 65535) % 65536) ≤ maxPatch.getD r 0
    split
    · exact Nat.le_refl _
    · omega

/-- Witness for c10_step_restores_bound at range 0, patch 60000. -/
theorem c10_step_restores_bound_witness :
    patchIncrement 0 60000 ≤ maxPatch.getD 0 0 ∧
    patchDecrement 0 60000 ≤ maxPatch.getD 0 0 :=
  c10_step_restores_bound 0 60000 (by decide) (by decide)

/-- C6: the MIDI channel is a true ring of sixteen: for every channel in
0..15, UP yields (c + 1) mod 16 and DOWN yields (c + 15) mod 16, i.e. the
mathematical (c - 1) mod 16, even though configMIDI decrements an unsigned
8 bit value before reapplying the modulo; in particular incrementing from 15
yields 0 and decrementing from 0 yields 15. -/
theorem c6_channel_ring (c : Nat) (hc : c ≤ 15) :
    channelUp c = (c + 1) % 16 ∧ channelDown c = (c + 15) % 16 ∧
    channelUp 15 = 0 ∧ channelDown 0 = 15 := by
  interval_cases c <;> decide

/-- Witness for c6_channel_ring at channel 0. -/
theorem c6_channel_ring_witness :
    channelUp 0 = (0 + 1) % 16 ∧ channelDown 0 = (0 + 15) % 16 ∧
    channelUp 15 = 0 ∧ channelDown 0 = 15 :=
  c6_channel_ring 0 (by decide)

/-- C8: configuration load always yields in-range working values for every
stored byte pattern: the channel is the stored byte masked to its low four
bits (so at most 15), the range index is the stored byte modulo 5 (so at
most 4), the display flag is bit zero of the stored byte, and all-zero
storage decodes to channel 0, range 0, flag 0. -/
theorem c8_load_total (chByte rByte dByte : Nat)
    (hch : chByte ≤ 255) (hrb : rByte ≤ 255) (hdb : dByte ≤ 255) :
    (manageConfigLoad chByte rByte dByte).midiChannel ≤ 15 ∧
    (manageConfigLoad chByte rByte dByte).midiChannel = chByte % 16 ∧
    (manageConfigLoad chByte rByte dByte).range ≤ 4 ∧
    (manageConfigLoad chByte rByte dByte).showZeroBased = dByte % 2 ∧
    manageConfigLoad 0 0 0 = ⟨0, 0, 0⟩ := by
  refine ⟨Nat.and_le_right, ?_, ?_, Nat.and_one_is_mod dByte, rfl⟩
  · show chByte &&& 0x0F = chByte % 16
    have h : (0x0F : Nat) = 2 ^ 4 - 1 := by decide
    rw [h, Nat.and_pow_two_sub_one_eq_mod]
  · show rByte % (MAXRANGE + 1) ≤ 4
    have := Nat.mod_lt rByte (show 0 < MAXRANGE + 1 by decide)
    unfold MAXRANGE at *
    omega

/-- Witness for c8_load_total at stored bytes 31, 7, 3. -/
theorem c8_load_total_witness :
    (manageConfigLoad 31 7 3).midiChannel ≤ 15 ∧
    (manageConfigLoad 31 7 3).midiChannel = 31 % 16 ∧
    (manageConfigLoad 31 7 3).range ≤ 4 ∧
    (manageConfigLoad 31 7 3).showZeroBased = 3 % 2 ∧
    manageConfigLoad 0 0 0 = ⟨0, 0, 0⟩ :=
  c8_load_total 31 7 3 (by decide) (by decide) (by decide)

/-- C4: for every patch up to 998 and channel up to 15, when the bank policy
requires a prefix (sendMIDIBank nonzero or range nonzero) the encoder emits
exactly 0xB0 + channel, 0x00, patch / 128, then 0xC0 + channel,
patch % 128; with the policy off it emits only 0xC0 + channel, patch % 128.
The least significant bank component never appears. -/
theorem c4_midi_encoder (patch ch : Nat) (hp : patch ≤ 998) (hc : ch ≤ 15) :
    (∀ sendMIDIBank range : Nat, sendMIDIBank ≠ 0 ∨ range ≠ 0 →
        sendMidiPC sendMIDIBank range ch patch =
          [0xB0 + ch, 0x00, patch / 128, 0xC0 + ch, patch % 128]) ∧
    sendMidiPC 0 0 ch patch = [0xC0 + ch, patch % 128] := by
  have hcc : MIDI_CC ||| ch = 0xB0 + ch := by
    unfold MIDI_CC; interval_cases ch <;> decide
  have hpc : MIDI_PC ||| ch = 0xC0 + ch := by
    unfold MIDI_PC; interval_cases ch <;> decide
  constructor
  · intro sb rg h
    unfold sendMidiPC
    rw [if_pos h, hcc, hpc]
    rfl
  · unfold sendMidiPC
    rw [if_neg (by omega), hpc]
    rfl

/-- Witness for c4_midi_encoder: the two byte sequences of the claim. -/
theorem c4_midi_encoder_witness :
    sendMidiPC 1 1 2 150 = [0xB2, 0x00, 0x01, 0xC2, 0x16] ∧
    sendMidiPC 0 0 0 5 = [0xC0, 0x05] :=
  ⟨((c4_midi_encoder 150 2 (by decide) (by decide)).1 1 1
      (Or.inl (by decide))).trans (by decide),
   ((c4_midi_encoder 5 0 (by decide) (by decide)).2).trans (by decide)⟩

/-- C2 counterexample: with in-memory channel 0 equal to the stored channel
value (low four bits of stored byte 0) but range changed to 1, the persist
step still writes the channel byte: a field whose in-memory value equals its
stored value is written back. -/
theorem c2_counterexample :
    (0 : Nat) = ((0 : Nat) &&& 0x0F) ∧
    (CHANNELOFFSET, 0) ∈ manageConfigWrites 0 1 0 ⟨0, 0, 0⟩ := by
  decide

/-- C2 amended: on exit from either config mode nothing is written exactly
when the in-memory channel equals the stored channel byte masked to its low
four bits, the in-memory range equals the raw stored range byte, and the
in-memory display flag equals the raw stored display byte; as soon as any of
the three comparisons differs, all three fields are written back, not only
the differing ones. -/
theorem c2_write_all_or_nothing (ch rg d : Nat) (st : StoredConfig) :
    (manageConfigWrites ch rg d st = [] ↔
      ch = (st.chByte &&& 0x0F) ∧ rg = st.rByte ∧ d = st.dByte) ∧
    (¬(ch = (st.chByte &&& 0x0F) ∧ rg = st.rByte ∧ d = st.dByte) →
      manageConfigWrites ch rg d st =
        [(CHANNELOFFSET, ch), (RANGEOFFSET, rg), (DISPLAYOFFSET, d)]) := by
  unfold manageConfigWrites
  by_cases h : ch = (st.chByte &&& 0x0F) ∧ rg = st.rByte ∧ d = st.dByte
  · rw [if_neg (by tauto)]
    exact ⟨⟨fun _ => h, fun _ => rfl⟩, fun hn => absurd h hn⟩
  · rw [if_pos (by tauto)]
    exact ⟨⟨fun hc => absurd hc (by simp), fun hall => absurd hall h⟩,
           fun _ => rfl⟩

/-- Witness for c2_write_all_or_nothing: changing only the display flag
against all-zero storage rewrites all three configuration bytes. -/
theorem c2_write_all_or_nothing_witness :
    manageConfigWrites 0 0 1 ⟨0, 0, 0⟩ =
      [(CHANNELOFFSET, 0), (RANGEOFFSET, 0), (DISPLAYOFFSET, 1)] :=
  (c2_write_all_or_nothing 0 0 1 ⟨0, 0, 0⟩).2 (by decide)

/-- State of the mode2 (scroll) loop: the committed patch (the global
midiPatchNo), the working copy (the local newPatchNo), the list of MIDI
messages sent so far (each entry one sendMidiPC byte sequence), and the loop
control variable i of mode2 (running = false once MODE was seen). -/
structure Mode2State where
  midiPatchNo : Nat
  newPatchNo : Nat
  sent : List (List Nat)
  running : Bool
deriving DecidableEq

/-- Entry of mode2: the working copy starts at the committed patch, nothing
is sent yet. -/
def mode2Init (midiPatchNo : Nat) : Mode2State :=
  ⟨midiPatchNo, midiPatchNo, [], true⟩

/-- One iteration of the mode2 switch statement on a scanFS result: UP and
DOWN step the working copy without transmitting; MODE ends the loop, commits
the working copy to midiPatchNo and performs the single sendMidiPC call. -/
def mode2Step (sendMIDIBank range midiChannel : Nat) (s : Mode2State)
    (ev : Nat) : Mode2State :=
  if s.running = false then s
  else if ev = UP then { s with newPatchNo := patchIncrement range s.newPatchNo }
  else if ev = DOWN then { s with newPatchNo := patchDecrement range s.newPatchNo }
  else if ev = MODE then
    { midiPatchNo := s.newPatchNo
      newPatchNo := s.newPatchNo
      sent := s.sent ++ [sendMidiPC sendMIDIBank range midiChannel s.newPatchNo]
      running := false }
  else s

/-- The mode2 loop over a sequence of scanFS results. -/
def mode2Run (sendMIDIBank range midiChannel : Nat) (s : Mode2State)
    (evs : List Nat) : Mode2State :=
  evs.foldl (mode2Step sendMIDIBank range midiChannel) s

/-- Helper: UP and DOWN iterations of mode2 keep the committed patch, the
sent list and the loop flag unchanged. -/
theorem mode2Run_upDown (sendMIDIBank range midiChannel : Nat)
    (evs : List Nat) (hevs : ∀ e ∈ evs, e = UP ∨ e = DOWN)
    (s : Mode2State) (hrun : s.running = true) :
    (mode2Run sendMIDIBank range midiChannel s evs).midiPatchNo =
      s.midiPatchNo ∧
    (mode2Run sendMIDIBank range midiChannel s evs).sent = s.sent ∧
    (mode2Run sendMIDIBank range midiChannel s evs).running = true := by
  induction evs generalizing s with
  | nil => exact ⟨rfl, rfl, hrun⟩
  | cons e evs ih =>
    have he : e = UP ∨ e = DOWN := hevs e (List.mem_cons_self e evs)
    have hevs2 : ∀ x ∈ evs, x = UP ∨ x = DOWN :=
      fun x hx => hevs x (List.mem_cons_of_mem e hx)
    have hstep : mode2Step sendMIDIBank range midiChannel s e =
        { s with newPatchNo :=
            if e = UP then patchIncrement range s.newPatchNo
            else patchDecrement range s.newPatchNo } := by
      rcases he with he | he <;> subst he <;> simp [mode2Step, hrun, UP, DOWN]
    have hiter : mode2Run sendMIDIBank range midiChannel s (e :: evs) =
        mode2Run sendMIDIBank range midiChannel
          (mode2Step sendMIDIBank range midiChannel s e) evs := rfl
    rw [hiter, hstep]
    exact ih hevs2 _ hrun

/-- C5: during scroll mode, for every sequence of UP and DOWN activations
the committed patch is unchanged and nothing is transmitted; the MODE
activation then copies the working value to the committed patch and performs
exactly one sendMidiPC call, carrying the final working value. -/
theorem c5_scroll_commit (sendMIDIBank range midiChannel p : Nat)
    (evs : List Nat) (hevs : ∀ e ∈ evs, e = UP ∨ e = DOWN) :
    (mode2Run sendMIDIBank range midiChannel (mode2Init p) evs).midiPatchNo
      = p ∧
    (mode2Run sendMIDIBank range midiChannel (mode2Init p) evs).sent = [] ∧
    (mode2Step sendMIDIBank range midiChannel
        (mode2Run sendMIDIBank range midiChannel (mode2Init p) evs)
        MODE).midiPatchNo =
      (mode2Run sendMIDIBank range midiChannel (mode2Init p) evs).newPatchNo ∧
    (mode2Step sendMIDIBank range midiChannel
        (mode2Run sendMIDIBank range midiChannel (mode2Init p) evs)
        MODE).sent =
      [sendMidiPC sendMIDIBank range midiChannel
        (mode2Run sendMIDIBank range midiChannel (mode2Init p) evs).newPatchNo] := by
  obtain ⟨h1, h2, h3⟩ :=
    mode2Run_upDown sendMIDIBank range midiChannel evs hevs (mode2Init p) rfl
  have h2c : (mode2Run sendMIDIBank range midiChannel (mode2Init p) evs).sent
      = [] := h2
  refine ⟨h1, h2c, ?_, ?_⟩
  · simp [mode2Step, h3, MODE, UP, DOWN]
  · simp [mode2Step, h3, h2c, MODE, UP, DOWN]

/-- Witness for c5_scroll_commit: three UP steps from committed patch 10 in
range 0 followed by the MODE commit give committed patch 13 and exactly one
transmitted message, the program change for 13. -/
theorem c5_scroll_commit_witness :
    (mode2Step 0 0 0 (mode2Run 0 0 0 (mode2Init 10) [0, 0, 0]) 2).midiPatchNo
      = 13 ∧
    (mode2Step 0 0 0 (mode2Run 0 0 0 (mode2Init 10) [0, 0, 0]) 2).sent
      = [[0xC0, 13]] := by
  have h := c5_scroll_commit 0 0 0 10 [0, 0, 0] (by decide)
  exact ⟨h.2.2.1.trans (by decide), h.2.2.2.trans (by decide)⟩

/-- The three footswitch software states FS_UP, FS_DOWN, FS_SENT. -/
inductive FsState
  | fsUp
  | fsDown
  | fsSent
deriving DecidableEq

/-- Per switch data of footSwitch_TypeDef (the GPIO pin is left out: line
levels are passed to the scan step directly). -/
structure FootSwitch where
  state : FsState
  timeDown : Nat
  firstDown : Nat
deriving DecidableEq

/-- State of one scanFS invocation: the persistent fsArr entries for UP,
DOWN and MODE, plus the autoRepeatPeriod local variable, which lives across
loop passes inside a call. -/
structure ScanState where
  up : FootSwitch
  down : FootSwitch
  mode : FootSwitch
  autoRepeatPeriod : Nat
deriving DecidableEq

/-- Initial fsArr entry: state FS_UP, both timestamps zero. -/
def fsInit : FootSwitch := ⟨.fsUp, 0, 0⟩

/-- Scan state at the top of a scanFS call on a freshly initialised fsArr. -/
def scanInit : ScanState := ⟨fsInit, fsInit, fsInit, AUTOREPEAT_AFTER_MS⟩

/-- The switch statement of scanFS for one switch whose line reads closed:
FS_UP records the press times; FS_DOWN fires once the debounce threshold has
elapsed; FS_SENT fires again only with autorepeat on, shortening the period
once the press is older than AUTOREPEAT_FAST_AFTER.  Returns the updated
switch entry, the updated autoRepeatPeriod, and whether scanFS returns this
switch index now. -/
def fsClosedStep (autoRepeat : Bool) (now : Nat) (fs : FootSwitch)
    (arp : Nat) : FootSwitch × Nat × Bool :=
  match fs.state with
  | .fsUp => (⟨.fsDown, now, now⟩, arp, false)
  | .fsDown =>
      if now - fs.timeDown > DEBOUNCE_THRESHOLD_MS then
        (⟨.fsSent, now, fs.firstDown⟩, arp, true)
      else (fs, arp, false)
  | .fsSent =>
      if autoRepeat = false then (fs, arp, false)
      else
        let arp2 := if now - fs.firstDown > AUTOREPEAT_FAST_AFTER then
            AUTOREPEAT_FAST_MS else arp
        if now - fs.timeDown > arp2 then (⟨.fsSent, now, fs.firstDown⟩, arp2, true)
        else (fs, arp2, false)

/-- Loop index i = MODE of the scanFS for loop, two switch build: the MODE
line reads closed exactly when the UP and DOWN lines are both closed, and in
that case the UP and DOWN software states are reset to FS_UP before the MODE
switch statement runs; an open MODE line resets the MODE state and the
autorepeat period. -/
def scanStepMode (autoRepeat : Bool) (st : ScanState) (now : Nat)
    (upClosed downClosed : Bool) : ScanState × Option Nat :=
  if upClosed && downClosed then
    let st1 : ScanState :=
      { st with up := { st.up with state := .fsUp },
                down := { st.down with state := .fsUp } }
    let r := fsClosedStep autoRepeat now st1.mode st1.autoRepeatPeriod
    ({ st1 with mode := r.1, autoRepeatPeriod := r.2.1 },
     if r.2.2 then some MODE else none)
  else
    ({ st with mode := { st.mode with state := .fsUp },
               autoRepeatPeriod := AUTOREPEAT_AFTER_MS },
     none)

/-- Loop indices i = DOWN then i = MODE of the scanFS for loop. -/
def scanStepDown (autoRepeat : Bool) (st : ScanState) (now : Nat)
    (upClosed downClosed : Bool) : ScanState × Option Nat :=
  if downClosed then
    let r := fsClosedStep autoRepeat now st.down st.autoRepeatPeriod
    let st1 := { st with down := r.1, autoRepeatPeriod := r.2.1 }
    if r.2.2 then (st1, some DOWN)
    else scanStepMode autoRepeat st1 now upClosed downClosed
  else
    scanStepMode autoRepeat
      { st with down := { st.down with state := .fsUp },
                autoRepeatPeriod := AUTOREPEAT_AFTER_MS }
      now upClosed downClosed

/-- One full pass of the scanFS for loop (i = UP, DOWN, MODE in that order,
stopping at the first switch that fires, exactly as the early return in the
C source does). -/
def scanStep (autoRepeat : Bool) (st : ScanState) (now : Nat)
    (upClosed downClosed : Bool) : ScanState × Option Nat :=
  if upClosed then
    let r := fsClosedStep autoRepeat now st.up st.autoRepeatPeriod
    let st1 := { st with up := r.1, autoRepeatPeriod := r.2.1 }
    if r.2.2 then (st1, some UP)
    else scanStepDown autoRepeat st1 now upClosed downClosed
  else
    scanStepDown autoRepeat
      { st with up := { st.up with state := .fsUp },
                autoRepeatPeriod := AUTOREPEAT_AFTER_MS }
      now upClosed downClosed

/-- A sequence of scan-loop passes over sampled line levels, each sample a
(time, UP line closed, DOWN line closed) triple, collecting every switch
index the scan returns (the caller of scanFS re-enters it immediately, so
the events of consecutive calls concatenate). -/
def scanRun (autoRepeat : Bool) (st : ScanState) :
    List (Nat × Bool × Bool) → ScanState × List Nat
  | [] => (st, [])
  | s :: rest =>
      let r := scanStep autoRepeat st s.1 s.2.1 s.2.2
      let k := scanRun autoRepeat r.1 rest
      (k.1, r.2.toList ++ k.2)

/-- Helper: in a pass that reads both lines closed while the UP and DOWN
entries are in FS_UP, neither UP nor DOWN can fire (their debounce timers are
rearmed in this very pass), the pass can only return MODE or nothing, and the
reset at the MODE slot leaves UP and DOWN in FS_UP again. -/
theorem scanStep_both_closed (ar : Bool) (st : ScanState) (t : Nat)
    (hu : st.up.state = .fsUp) (hd : st.down.state = .fsUp) :
    ((scanStep ar st t true true).1.up.state = .fsUp ∧
     (scanStep ar st t true true).1.down.state = .fsUp) ∧
    ((scanStep ar st t true true).2 = none ∨
     (scanStep ar st t true true).2 = some MODE) := by
  cases hms : st.mode.state <;>
    simp [scanStep, scanStepDown, scanStepMode, fsClosedStep, hu, hd, hms]

/-- C3 counterexample: from the freshly initialised scan state, the UP line
closes at tick 0 and stays closed with a scan pass at every tick; at tick 51
the DOWN line is also read closed in the same pass, yet the scan returns UP,
not MODE — the UP debounce timer elapsed in the very pass in which both
lines first read closed, and UP is processed before the reset at the MODE
slot. -/
theorem c3_counterexample :
    (scanRun false scanInit
        (((List.range 51).map (fun t => (t, true, false))) ++
          [(51, true, true)])).2 = [UP] ∧ UP ≠ MODE := by
  constructor
  · decide
  · decide

/-- C3 amended: if the UP and DOWN software states are both FS_UP when the
scan reads both lines closed (in particular when both lines close within the
same pass), every event the scan returns over any run of both-closed passes
is MODE — the reset rule clears UP and DOWN in each pass before their timers
can elapse.  The protection does not extend to a switch already mid-debounce
whose timer elapses in the same pass in which the other line first reads
closed (see the counterexample). -/
theorem c3_both_closed_only_mode (ar : Bool) (st : ScanState)
    (ts : List Nat) (hu : st.up.state = .fsUp) (hd : st.down.state = .fsUp) :
    ∀ e ∈ (scanRun ar st (ts.map (fun t => (t, true, true)))).2, e = MODE := by
  induction ts generalizing st with
  | nil => intro e he; simp [scanRun] at he
  | cons t ts ih =>
    intro e he
    have h1 := scanStep_both_closed ar st t hu hd
    simp only [List.map_cons, scanRun] at he
    rcases List.mem_append.mp he with h | h
    · rcases h1.2 with hnone | hsome
      · rw [hnone] at h; simp at h
      · rw [hsome] at h; simp at h; omega
    · exact ih (scanStep ar st t true true).1 h1.1.1 h1.1.2 e h

/-- Witness for c3_both_closed_only_mode: four both-closed passes from the
initial state return exactly one event, MODE, and the theorem applied to the
member 2 of that event list confirms it is MODE. -/
theorem c3_both_closed_only_mode_witness :
    (scanRun false scanInit
        ([0, 10, 60, 120].map (fun t => (t, true, true)))).2 = [ MODE ] ∧
    (2 : Nat) = MODE :=
  ⟨by decide,
   c3_both_closed_only_mode false scanInit [0, 10, 60, 120] rfl rfl 2
     (by decide)⟩

/-- Helper: running a scan over the concatenation of two sample lists first
runs the prefix, then the suffix from the resulting state, concatenating the
returned events. -/
theorem scanRun_append (ar : Bool) (st : ScanState)
    (l1 l2 : List (Nat × Bool × Bool)) :
    (scanRun ar st (l1 ++ l2)).2 =
      (scanRun ar st l1).2 ++ (scanRun ar (scanRun ar st l1).1 l2).2 := by
  induction l1 generalizing st with
  | nil => rfl
  | cons s l1 ih =>
    simp only [List.cons_append, scanRun, List.append_eq]
    rw [ih]
    simp

/-- Helper: a pass with only the UP line closed and the UP entry in FS_UP
rearms the press timestamps and returns nothing. -/
theorem scanStep_single_fresh (ar : Bool) (st : ScanState) (t : Nat)
    (hu : st.up.state = .fsUp) :
    (scanStep ar st t true false).2 = none ∧
    (scanStep ar st t true false).1.up = ⟨.fsDown, t, t⟩ := by
  simp [scanStep, scanStepDown, scanStepMode, fsClosedStep, hu]

/-- Helper: a pass with only the UP line closed, the UP entry in FS_DOWN and
the debounce threshold not yet elapsed changes nothing and returns nothing. -/
theorem scanStep_single_pending (ar : Bool) (st : ScanState) (t t0 f0 : Nat)
    (hup : st.up = ⟨.fsDown, t0, f0⟩)
    (hle : t ≤ t0 + DEBOUNCE_THRESHOLD_MS) :
    (scanStep ar st t true false).2 = none ∧
    (scanStep ar st t true false).1.up = ⟨.fsDown, t0, f0⟩ := by
  have hcond : ¬(t - t0 > DEBOUNCE_THRESHOLD_MS) := by omega
  simp [scanStep, scanStepDown, scanStepMode, fsClosedStep, hup, hcond]

/-- Helper: a pass with only the UP line closed, the UP entry in FS_DOWN and
the debounce threshold elapsed fires UP and moves the entry to FS_SENT. -/
theorem scanStep_single_fire (ar : Bool) (st : ScanState) (t t0 f0 : Nat)
    (hup : st.up = ⟨.fsDown, t0, f0⟩)
    (hgt : t0 + DEBOUNCE_THRESHOLD_MS < t) :
    (scanStep ar st t true false).2 = some UP ∧
    (scanStep ar st t true false).1.up = ⟨.fsSent, t, f0⟩ := by
  have hcond : t - t0 > DEBOUNCE_THRESHOLD_MS := by omega
  simp [scanStep, scanStepDown, scanStepMode, fsClosedStep, hup, hcond]

/-- Helper: with autorepeat off, a pass with only the UP line closed and the
UP entry in FS_SENT changes nothing and returns nothing. -/
theorem scanStep_single_sent_off (st : ScanState) (t : Nat)
    (hup : st.up.state = .fsSent) :
    (scanStep false st t true false).2 = none ∧
    (scanStep false st t true false).1.up = st.up := by
  simp [scanStep, scanStepDown, scanStepMode, fsClosedStep, hup]

/-- Helper: a run of passes with only the UP line closed, all within the
debounce window of a press at t0, returns no events and leaves the UP entry
pending with its original timestamps. -/
theorem scanRun_single_pending (ts : List Nat) (st : ScanState) (t0 f0 : Nat)
    (hup : st.up = ⟨.fsDown, t0, f0⟩)
    (hts : ∀ t ∈ ts, t ≤ t0 + DEBOUNCE_THRESHOLD_MS) :
    (scanRun false st (ts.map (fun t => (t, true, false)))).2 = [] ∧
    (scanRun false st (ts.map (fun t => (t, true, false)))).1.up =
      ⟨.fsDown, t0, f0⟩ := by
  induction ts generalizing st with
  | nil => exact ⟨rfl, hup⟩
  | cons t ts ih =>
    have h1 := scanStep_single_pending false st t t0 f0 hup
      (hts t (List.mem_cons_self t ts))
    have h2 := ih (scanStep false st t true false).1 h1.2
      (fun x hx => hts x (List.mem_cons_of_mem t hx))
    simp only [List.map_cons, scanRun]
    rw [h1.1]
    simpa using h2

/-- Helper: with autorepeat off, a run of passes with only the UP line
closed and the UP entry in FS_SENT returns no events. -/
theorem scanRun_single_sent_off (ts : List Nat) (st : ScanState)
    (hup : st.up.state = .fsSent) :
    (scanRun false st (ts.map (fun t => (t, true, false)))).2 = [] := by
  induction ts generalizing st with
  | nil => rfl
  | cons t ts ih =>
    have h1 := scanStep_single_sent_off st t hup
    have h2 := ih (scanStep false st t true false).1 (by rw [h1.2]; exact hup)
    simp only [List.map_cons, scanRun]
    rw [h1.1]
    simpa using h2

/-- C7: with autorepeat off, a continuous press of the UP switch alone whose
samples all lie within the 50 ms debounce window of the press start yields
zero events; a press that continues past the threshold yields exactly one
event over the whole press, however long the remaining closed samples go on;
and a pass that reads the line open always resets the switch state to FS_UP. -/
theorem c7_debounce_once (st : ScanState) (hu : st.up.state = .fsUp)
    (t0 tf : Nat) (ts ts2 : List Nat)
    (hwin : ∀ t ∈ ts, t0 ≤ t ∧ t ≤ t0 + DEBOUNCE_THRESHOLD_MS)
    (htf : t0 + DEBOUNCE_THRESHOLD_MS < tf) :
    (scanRun false st ((t0 :: ts).map (fun t => (t, true, false)))).2 = [] ∧
    (scanRun false st
        (((t0 :: ts) ++ tf :: ts2).map (fun t => (t, true, false)))).2 =
      [UP] ∧
    (∀ (st2 : ScanState) (t : Nat),
       ((scanStep false st2 t false false).1).up.state = .fsUp) := by
  have h0 := scanStep_single_fresh false st t0 hu
  have hrun := scanRun_single_pending ts (scanStep false st t0 true false).1
    t0 t0 h0.2 (fun x hx => (hwin x hx).2)
  have hfirst :
      (scanRun false st ((t0 :: ts).map (fun t => (t, true, false)))).2 = [] ∧
      (scanRun false st ((t0 :: ts).map (fun t => (t, true, false)))).1.up =
        ⟨.fsDown, t0, t0⟩ := by
    simp only [List.map_cons, scanRun]
    rw [h0.1]
    simpa using hrun
  refine ⟨hfirst.1, ?_, ?_⟩
  · have hfire := scanStep_single_fire false
      (scanRun false st ((t0 :: ts).map (fun t => (t, true, false)))).1
      tf t0 t0 hfirst.2 htf
    have hrest := scanRun_single_sent_off ts2
      (scanStep false
        (scanRun false st ((t0 :: ts).map (fun t => (t, true, false)))).1
        tf true false).1 (by rw [hfire.2])
    have hcons : (scanRun false
        (scanRun false st ((t0 :: ts).map (fun t => (t, true, false)))).1
        ((tf :: ts2).map (fun t => (t, true, false)))).2 =
      (scanStep false
        (scanRun false st ((t0 :: ts).map (fun t => (t, true, false)))).1
        tf true false).2.toList ++
      (scanRun false
        (scanStep false
          (scanRun false st ((t0 :: ts).map (fun t => (t, true, false)))).1
          tf true false).1 (ts2.map (fun t => (t, true, false)))).2 := rfl
    rw [List.map_append, scanRun_append, hfirst.1, hcons, hfire.1, hrest]
    rfl
  · intro st2 t
    simp [scanStep, scanStepDown, scanStepMode]

/-- Witness for c7_debounce_once: a press at tick 100 sampled inside the
window at ticks 100, 130 and 150 yields nothing; continuing the press with
samples at 151, 160 and 1000 yields exactly the single event UP. -/
theorem c7_debounce_once_witness :
    (scanRun false scanInit
        (((100 : Nat) :: [100, 130, 150]).map (fun t => (t, true, false)))).2
      = [] ∧
    (scanRun false scanInit
        ((((100 : Nat) :: [100, 130, 150]) ++ 151 :: [160, 1000]).map
          (fun t => (t, true, false)))).2 = [UP] := by
  have h := c7_debounce_once scanInit rfl 100 151 [100, 130, 150] [160, 1000]
    (by decide) (by decide)
  exact ⟨h.1, h.2.1⟩

/-- C9: with autorepeat on and the UP switch held in FS_SENT (last fired at
tl, press begun at t0, base period entering the pass, as every pass with the
DOWN line open restores), a pass at time t fires exactly when the time since
the last event exceeds the effective period: AUTOREPEAT_AFTER_MS (300 ms)
while the press age is at most AUTOREPEAT_FAST_AFTER (1000 ms), and
AUTOREPEAT_FAST_MS (60 ms) afterwards.  Consequently, while still in the
slow region the next event comes exactly 301 ticks after the last, after the
1000 ms mark exactly 61 ticks after, and the fast gap is strictly smaller
than the slow gap. -/
theorem c9_autorepeat_accel (st : ScanState) (tl t0 : Nat)
    (hup : st.up = ⟨.fsSent, tl, t0⟩)
    (harp : st.autoRepeatPeriod = AUTOREPEAT_AFTER_MS) :
    (∀ t, (scanStep true st t true false).2 =
        (if t - tl > (if t - t0 > AUTOREPEAT_FAST_AFTER then
            AUTOREPEAT_FAST_MS else AUTOREPEAT_AFTER_MS) then some UP
         else none)) ∧
    (tl + AUTOREPEAT_AFTER_MS + 1 ≤ t0 + AUTOREPEAT_FAST_AFTER →
       (∀ g, g ≤ AUTOREPEAT_AFTER_MS →
          (scanStep true st (tl + g) true false).2 = none) ∧
       (scanStep true st (tl + AUTOREPEAT_AFTER_MS + 1) true false).2 =
         some UP) ∧
    (t0 + AUTOREPEAT_FAST_AFTER ≤ tl →
       (∀ g, g ≤ AUTOREPEAT_FAST_MS →
          (scanStep true st (tl + g) true false).2 = none) ∧
       (scanStep true st (tl + AUTOREPEAT_FAST_MS + 1) true false).2 =
         some UP) ∧
    AUTOREPEAT_FAST_MS + 1 < AUTOREPEAT_AFTER_MS + 1 := by
  have h1 : ∀ t, (scanStep true st t true false).2 =
      (if t - tl > (if t - t0 > AUTOREPEAT_FAST_AFTER then
          AUTOREPEAT_FAST_MS else AUTOREPEAT_AFTER_MS) then some UP
       else none) := by
    intro t
    obtain ⟨u, d, m, a⟩ := st
    obtain rfl : u = ⟨.fsSent, tl, t0⟩ := hup
    obtain rfl : a = AUTOREPEAT_AFTER_MS := harp
    by_cases hfast : t - t0 > AUTOREPEAT_FAST_AFTER
    · by_cases hfire : t - tl > AUTOREPEAT_FAST_MS
      · simp [scanStep, scanStepDown, scanStepMode, fsClosedStep, hfast, hfire]
      · simp [scanStep, scanStepDown, scanStepMode, fsClosedStep, hfast, hfire]
    · by_cases hfire : t - tl > AUTOREPEAT_AFTER_MS
      · simp [scanStep, scanStepDown, scanStepMode, fsClosedStep, hfast, hfire]
      · simp [scanStep, scanStepDown, scanStepMode, fsClosedStep, hfast, hfire]
  refine ⟨h1, ?_, ?_, by decide⟩
  · intro hsl
    refine ⟨fun g hg => ?_, ?_⟩
    · rw [h1 (tl + g)]
      have hA : ¬(tl + g - tl > (if tl + g - t0 > AUTOREPEAT_FAST_AFTER then
          AUTOREPEAT_FAST_MS else AUTOREPEAT_AFTER_MS)) := by
        unfold AUTOREPEAT_FAST_AFTER AUTOREPEAT_FAST_MS AUTOREPEAT_AFTER_MS
          at *
        split <;> omega
      rw [if_neg hA]
    · rw [h1 (tl + AUTOREPEAT_AFTER_MS + 1)]
      have hin : ¬(tl + AUTOREPEAT_AFTER_MS + 1 - t0 >
          AUTOREPEAT_FAST_AFTER) := by
        unfold AUTOREPEAT_FAST_AFTER AUTOREPEAT_AFTER_MS at *
        omega
      rw [if_neg hin, if_pos (by unfold AUTOREPEAT_AFTER_MS at *; omega)]
  · intro hfa
    refine ⟨fun g hg => ?_, ?_⟩
    · rw [h1 (tl + g)]
      have hA : ¬(tl + g - tl > (if tl + g - t0 > AUTOREPEAT_FAST_AFTER then
          AUTOREPEAT_FAST_MS else AUTOREPEAT_AFTER_MS)) := by
        unfold AUTOREPEAT_FAST_AFTER AUTOREPEAT_FAST_MS AUTOREPEAT_AFTER_MS
          at *
        split <;> omega
      rw [if_neg hA]
    · rw [h1 (tl + AUTOREPEAT_FAST_MS + 1)]
      have hin : tl + AUTOREPEAT_FAST_MS + 1 - t0 >
          AUTOREPEAT_FAST_AFTER := by
        unfold AUTOREPEAT_FAST_AFTER AUTOREPEAT_FAST_MS at *
        omega
      rw [if_pos hin, if_pos (by unfold AUTOREPEAT_FAST_MS at *; omega)]

/-- Witness for c9_autorepeat_accel: a switch pressed at tick 1000 whose
last event was at tick 1200 (slow region) fires next at tick 1501, a gap of
301; one pressed at tick 0 whose last event was at tick 1500 (fast region)
fires next at tick 1561, a gap of 61. -/
theorem c9_autorepeat_accel_witness :
    (scanStep true
        (⟨⟨.fsSent, 1200, 1000⟩, fsInit, fsInit, 300⟩ : ScanState)
        1501 true false).2 = some UP ∧
    (scanStep true
        (⟨⟨.fsSent, 1500, 0⟩, fsInit, fsInit, 300⟩ : ScanState)
        1561 true false).2 = some UP :=
  ⟨((c9_autorepeat_accel _ 1200 1000 rfl rfl).2.1 (by decide)).2,
   ((c9_autorepeat_accel _ 1500 0 rfl rfl).2.2.1 (by decide)).2⟩

end Lasc
